import Mathlib

/-!
Verification development for the Pyspark-E-Commerce-Logs-Analysis repository.

We shallowly embed the two source files:
  * `src/data_generation/generate_data.py` — the synthetic data generator
    (class `EcommerceDataGenerator`); and
  * `src/analytics/revenue_analysis.py` — the revenue aggregation
    (`calculate_revenue`).

Modelling conventions:
  * The process-wide seeded pseudo-random generator (`random.seed(42)` /
    `Faker.seed(42)`) is modelled as an `Oracle`: two read-only tapes, one of
    naturals (one entry per draw from the `random` module) and one of strings
    (one entry per draw from the `faker` library).  A `GenState` is the oracle
    together with the read positions; each draw advances a position.  All
    theorems quantify over the oracle, so they hold for every seed.
  * `datetime` values are integers (seconds); `timedelta(days = d)` is
    `d * 86400`.  `datetime.now()` is an explicit parameter `now` of each
    generation routine, taken once at the start of the call, as in the source.
  * Python floats for money/ratings are modelled as exact rationals `ℚ`;
    `round(x, 2)` is rounding to 2 decimal places.
  * Calls that raise in Python (`random.choice` on an empty sequence,
    `random.sample` with a sample size above the population size) return
    `none`, and the generation routines propagate the failure.
  * `pandas.DataFrame.sort_values("timestamp")` is a comparison sort by the
    timestamp key, modelled by `List.insertionSort` on that key.
-/

namespace ECommerce

/-- The tapes of values produced by the seeded process-wide pseudo-random
generator: `nat` models the successive draws taken from the `random` module,
`str` models the successive strings produced by the `faker` library. -/
structure Oracle where
  nat : ℕ → ℕ
  str : ℕ → String

/-- The shared generator state: the oracle plus the current read positions of
the two tapes (`random.seed` / `Faker.seed` fix the tapes once per process). -/
structure GenState where
  oracle : Oracle
  npos : ℕ
  spos : ℕ

/-- Take the next value from the `random`-module tape. -/
def nextNat (s : GenState) : ℕ × GenState :=
  (s.oracle.nat s.npos, { s with npos := s.npos + 1 })

/-- Take the next string from the `faker` tape (`fake.catch_phrase()`,
`fake.uuid4()`). -/
def nextStr (s : GenState) : String × GenState :=
  (s.oracle.str s.spos, { s with spos := s.spos + 1 })

/-- `random.randint(a, b)`: one draw, mapped into the inclusive range
`[a, b]`. -/
def randintN (a b : ℕ) (s : GenState) : ℕ × GenState :=
  let (r, s1) := nextNat s
  (a + r % (b + 1 - a), s1)

/-- `random.choice(seq)`: the element of `seq` at a generator-chosen index;
raises `IndexError` on an empty sequence (modelled by `none`). -/
def choice {α : Type} (l : List α) (s : GenState) : Option α × GenState :=
  let (r, s1) := nextNat s
  (l.get? (r % l.length), s1)

/-- Index of the first cumulative weight bucket containing `r`
(inverse-CDF selection). -/
def cumFind : List ℕ → ℕ → ℕ
  | [], _ => 0
  | w :: ws, r => if r < w then 0 else cumFind ws (r - w) + 1

/-- `random.choices(population, weights = ws)[0]`: weighted categorical
selection driven by one generator draw. -/
def choicesW {α : Type} (l : List α) (ws : List ℕ) (s : GenState) :
    Option α × GenState :=
  let (r, s1) := nextNat s
  (l.get? (cumFind ws (r % ws.sum)), s1)

/-- `random.uniform(a, b) = a + (b - a) * random()`, where `random()` is a
53-bit uniform fraction in `[0, 1)`. -/
def uniform (a b : ℚ) (s : GenState) : ℚ × GenState :=
  let (r, s1) := nextNat s
  (a + (b - a) * ((r % 2 ^ 53 : ℕ) : ℚ) / 2 ^ 53, s1)

/-- The floor of a rational, computed from its numerator and denominator. -/
def ratFloor (q : ℚ) : ℤ := q.num.fdiv (q.den : ℤ)

/-- Python `round(x)`: round to the nearest integer, ties to the even
integer (round-half-to-even). -/
def pyRound (q : ℚ) : ℤ :=
  let fl := ratFloor q
  if q - (fl : ℚ) < 1 / 2 then fl
  else if 1 / 2 < q - (fl : ℚ) then fl + 1
  else if fl % 2 = 0 then fl else fl + 1

/-- Python `round(x, 2)`: round to 2 decimal places. -/
def round2 (q : ℚ) : ℚ := ((pyRound (q * 100) : ℤ) : ℚ) / 100

/-- Python `round(x, 1)`: round to 1 decimal place. -/
def round1 (q : ℚ) : ℚ := ((pyRound (q * 10) : ℤ) : ℚ) / 10

/-! ### Zero-padded identifiers

`f"user_{i:06d}"` and `f"product_{i:04d}"`: decimal rendering of `i`,
left-padded with zeros to the given width. -/

/-- Little-endian decimal digits of `n` (empty for `0`); the first argument is
structural fuel, always instantiated with `n` itself. -/
def digitsLE : ℕ → ℕ → List ℕ
  | 0, _ => []
  | fuel + 1, n => if n = 0 then [] else n % 10 :: digitsLE fuel (n / 10)

/-- The character for a decimal digit. -/
def digitChar (d : ℕ) : Char := Char.ofNat (48 + d)

/-- Decimal rendering of `n`, most significant digit first (empty for `0`,
which only occurs padded). -/
def natChars (n : ℕ) : List Char := ((digitsLE n n).map digitChar).reverse

/-- Decimal rendering of `n` left-padded with `'0'` to width `w`
(Python `f"{n:0wd}"`). -/
def padChars (w n : ℕ) : List Char :=
  List.replicate (w - (natChars n).length) '0' ++ natChars n

/-- `f"user_{i:06d}"`. -/
def userId (i : ℕ) : String := String.mk ("user_".data ++ padChars 6 i)

/-- `f"product_{i:04d}"`. -/
def productId (i : ℕ) : String := String.mk ("product_".data ++ padChars 4 i)

/-! ### Entity pools (`EcommerceDataGenerator.__init__`) -/

/-- `self.categories`. -/
def categories : List String :=
  ["Electronics", "Clothing", "Home & Garden",
   "Sports", "Books", "Toys", "Beauty", "Food"]

/-- `self.brands`: the brand list keyed by category (`dict` lookup; a missing
key would raise, modelled by an empty list, never hit on `categories`). -/
def brands : String → List String
  | "Electronics" => ["Samsung", "Sony", "Apple", "Philips"]
  | "Clothing" => ["Nike", "Adidas", "H&M", "Louis Vuitton"]
  | "Home & Garden" => ["Ikea", "Bosch", "HomeEase", "GardenPro"]
  | "Sports" => ["Nike", "Adidas", "Decathlon", "Under Armour"]
  | "Books" => ["Gallimard", "Penguin", "Hachette", "BookWorld"]
  | "Toys" => ["Lego", "Playmobil", "Mattel", "ToyBox"]
  | "Beauty" => ["L\x27Oréal", "Sephora", "Yves Rocher", "BeautyPlus"]
  | "Food" => ["Nestlé", "Danone", "Carrefour", "Foodies"]
  | _ => []

/-- `self.pages`. -/
def pages : List String :=
  ["/", "/products", "/cart", "/checkout", "/account", "/orders", "/returns",
   "/search", "/category/electronics", "/category/clothing",
   "/category/home", "/category/sports", "/category/books", "/category/toys",
   "/category/beauty", "/category/food", "/offers", "/faq", "/about",
   "/contact"]

/-- `self.actions`. -/
def actions : List String :=
  ["view", "click", "add_to_cart", "remove_from_cart", "search"]

/-- `self.devices`. -/
def devices : List String := ["Desktop", "Mobile", "Tablet"]

/-- The per-instance state built by `EcommerceDataGenerator.__init__`. -/
structure Pools where
  num_users : ℕ
  num_products : ℕ
  users : List String
  products : List String

/-- `EcommerceDataGenerator(num_users, num_products)`. -/
def mkPools (num_users num_products : ℕ) : Pools :=
  { num_users := num_users
    num_products := num_products
    users := (List.range num_users).map userId
    products := (List.range num_products).map productId }

/-! ### Product catalog (`generate_products`) -/

/-- One row of the product catalog. -/
structure Product where
  product_id : String
  product_name : String
  category : String
  price : ℚ
  brand : String
  stock_quantity : ℕ
  rating : ℚ
  deriving DecidableEq

/-- One iteration of the `generate_products` loop.  Note the source draws a
`category` variable first, then *redraws* the stored `category` field
independently (`random.choice(list(self.categories))`) while the `brand` field
is drawn from the brand list keyed by the first draw. -/
def genProduct (pid : String) (s0 : GenState) : Option (Product × GenState) :=
  let (c1?, s1) := choice categories s0
  match c1? with
  | none => none
  | some category =>
    let (pname, s2) := nextStr s1
    let (c2?, s3) := choice categories s2
    match c2? with
    | none => none
    | some cat2 =>
      let (pr, s4) := uniform 9.99 999.99 s3
      let (b?, s5) := choice (brands category) s4
      match b? with
      | none => none
      | some brand =>
        let (stock, s6) := randintN 0 1000 s5
        let (rat, s7) := uniform 1.0 5.0 s6
        some ({ product_id := pid
                product_name := pname
                category := cat2
                price := round2 pr
                brand := brand
                stock_quantity := stock
                rating := round1 rat }, s7)

/-- The `for product_id in self.products` loop of `generate_products`. -/
def genProductsAux : List String → GenState → Option (List Product × GenState)
  | [], s => some ([], s)
  | pid :: rest, s =>
    match genProduct pid s with
    | none => none
    | some (p, s1) =>
      match genProductsAux rest s1 with
      | none => none
      | some (ps, s2) => some (p :: ps, s2)

/-- `EcommerceDataGenerator.generate_products`. -/
def generate_products (pools : Pools) (s : GenState) :
    Option (List Product × GenState) :=
  genProductsAux pools.products s

/-! ### User navigation logs (`generate_user_logs`) -/

/-- One row of the navigation log. -/
structure LogRow where
  user_id : String
  timestamp : ℤ
  page_url : String
  session_id : String
  action : String
  device_type : String
  duration_seconds : ℕ
  deriving DecidableEq

/-- Sort key used by `df.sort_values("timestamp")` on logs. -/
def logLe (a b : LogRow) : Prop := a.timestamp ≤ b.timestamp

instance logLeDec : DecidableRel logLe := fun a b => Int.decLe _ _

instance logLeTotal : IsTotal LogRow logLe := ⟨fun a b => Int.le_total _ _⟩

instance logLeTrans : IsTrans LogRow logLe := ⟨fun _ _ _ => Int.le_trans⟩

/-- One iteration of the `generate_user_logs` loop.  `start` is
`datetime.now() - timedelta(days = days)`, computed once before the loop. -/
def genLogRow (pools : Pools) (days : ℕ) (start : ℤ) (s0 : GenState) :
    Option (LogRow × GenState) :=
  let (u?, s1) := choice pools.users s0
  match u? with
  | none => none
  | some user_id =>
    let (d, s2) := randintN 0 days s1
    let (h, s3) := randintN 0 23 s2
    let (m, s4) := randintN 0 59 s3
    let (sec, s5) := randintN 0 59 s4
    let (uuid, s6) := nextStr s5
    let (pg?, s7) := choice pages s6
    match pg? with
    | none => none
    | some page_url =>
      let (act?, s8) := choicesW actions [50, 30, 15, 3, 2] s7
      match act? with
      | none => none
      | some action =>
        let (dev?, s9) := choicesW devices [40, 50, 10] s8
        match dev? with
        | none => none
        | some device_type =>
          let (dur, s10) := randintN 5 600 s9
          some ({ user_id := user_id
                  timestamp := start + (d : ℤ) * 86400 + (h : ℤ) * 3600
                    + (m : ℤ) * 60 + (sec : ℤ)
                  page_url := page_url
                  session_id := "session_" ++ String.mk (uuid.data.take 8)
                  action := action
                  device_type := device_type
                  duration_seconds := dur }, s10)

/-- The `for _ in range(num_logs)` loop of `generate_user_logs`. -/
def genLogsAux (pools : Pools) (days : ℕ) (start : ℤ) :
    ℕ → GenState → Option (List LogRow × GenState)
  | 0, s => some ([], s)
  | n + 1, s =>
    match genLogRow pools days start s with
    | none => none
    | some (row, s1) =>
      match genLogsAux pools days start n s1 with
      | none => none
      | some (rows, s2) => some (row :: rows, s2)

/-- `EcommerceDataGenerator.generate_user_logs`; `now` is the value of
`datetime.now()` observed at the start of the call. -/
def generate_user_logs (pools : Pools) (num_logs days : ℕ) (now : ℤ)
    (s : GenState) : Option (List LogRow × GenState) :=
  let start := now - (days : ℤ) * 86400
  match genLogsAux pools days start num_logs s with
  | none => none
  | some (rows, s1) => some (List.insertionSort logLe rows, s1)

/-! ### Transactions (`generate_transactions`) -/

/-- One transaction line. -/
structure TxRow where
  transaction_id : String
  user_id : String
  product_id : String
  quantity : ℕ
  unit_price : ℚ
  amount : ℚ
  timestamp : ℤ
  payment_method : String
  status : String
  deriving DecidableEq

/-- Sort key used by `df.sort_values("timestamp")` on transactions. -/
def txLe (a b : TxRow) : Prop := a.timestamp ≤ b.timestamp

instance txLeDec : DecidableRel txLe := fun a b => Int.decLe _ _

instance txLeTotal : IsTotal TxRow txLe := ⟨fun a b => Int.le_total _ _⟩

instance txLeTrans : IsTrans TxRow txLe := ⟨fun _ _ _ => Int.le_trans⟩

/-- The purchaser subset size `int(self.num_users * 0.3)`.  Python truncates
the float product toward zero; for every natural `n` in the representable
range this equals `⌊3n/10⌋` (the double closest to `n * 0.3` never crosses an
integer boundary, since non-integer exact values of `3n/10` are at least
`1/10` away from the integer below and the relative rounding error is of
order `2⁻⁵³`). -/
def purchaserCount (n : ℕ) : ℕ := n * 3 / 10

/-- The selection loop of `random.sample(population, k)`: each step draws one
index among the not-yet-chosen elements and removes the chosen element
(sampling without replacement). -/
def sampleGo : ℕ → List String → GenState → List String × GenState
  | 0, _, s => ([], s)
  | k + 1, l, s =>
    let (r, s1) := nextNat s
    match l.get? (r % l.length) with
    | none => ([], s1)
    | some u =>
      let (rest, s2) := sampleGo k (l.eraseIdx (r % l.length)) s1
      (u :: rest, s2)

/-- `random.sample(population, k)`: raises `ValueError` when `k` exceeds the
population size (modelled by `none`). -/
def sampleStr (l : List String) (k : ℕ) (s : GenState) :
    Option (List String × GenState) :=
  if k ≤ l.length then some (sampleGo k l s) else none

/-- One iteration of the inner `for _ in range(num_items)` loop of
`generate_transactions`. -/
def genTxLine (pools : Pools) (user_id : String) (ts : ℤ) (s0 : GenState) :
    Option (TxRow × GenState) :=
  let (pid?, s1) := choice pools.products s0
  match pid? with
  | none => none
  | some product_id =>
    let (q?, s2) := choicesW [1, 2, 3] [70, 20, 10] s1
    match q? with
    | none => none
    | some quantity =>
      let (pr, s3) := uniform 9.99 999.99 s2
      let price := round2 pr
      let (txid, s4) := nextStr s3
      let (pm?, s5) :=
        choice ["credit_card", "paypal", "debit_card", "gift_card"] s4
      match pm? with
      | none => none
      | some payment_method =>
        let (st?, s6) :=
          choicesW ["completed", "pending", "cancelled", "refunded"]
            [85, 8, 5, 2] s5
        match st? with
        | none => none
        | some status =>
          some ({ transaction_id := txid
                  user_id := user_id
                  product_id := product_id
                  quantity := quantity
                  unit_price := price
                  amount := round2 (price * (quantity : ℚ))
                  timestamp := ts
                  payment_method := payment_method
                  status := status }, s6)

/-- The inner basket loop: `num_items` lines sharing `user_id` and
`timestamp`. -/
def genTxLines (pools : Pools) (user_id : String) (ts : ℤ) :
    ℕ → GenState → Option (List TxRow × GenState)
  | 0, s => some ([], s)
  | n + 1, s =>
    match genTxLine pools user_id ts s with
    | none => none
    | some (row, s1) =>
      match genTxLines pools user_id ts n s1 with
      | none => none
      | some (rows, s2) => some (row :: rows, s2)

/-- One basket-event of `generate_transactions`: purchaser, timestamp
(days/hours/minutes resolution — no seconds), basket size, then the lines. -/
def genTxEvent (pools : Pools) (purch : List String) (days : ℕ) (start : ℤ)
    (s0 : GenState) : Option (List TxRow × GenState) :=
  let (u?, s1) := choice purch s0
  match u? with
  | none => none
  | some user_id =>
    let (d, s2) := randintN 0 days s1
    let (h, s3) := randintN 0 23 s2
    let (m, s4) := randintN 0 59 s3
    let ts := start + (d : ℤ) * 86400 + (h : ℤ) * 3600 + (m : ℤ) * 60
    let (ni?, s5) := choicesW [1, 2, 3, 4, 5] [50, 25, 15, 7, 3] s4
    match ni? with
    | none => none
    | some num_items => genTxLines pools user_id ts num_items s5

/-- The `for _ in range(num_transactions)` loop of `generate_transactions`. -/
def genTxEvents (pools : Pools) (purch : List String) (days : ℕ) (start : ℤ) :
    ℕ → GenState → Option (List TxRow × GenState)
  | 0, s => some ([], s)
  | n + 1, s =>
    match genTxEvent pools purch days start s with
    | none => none
    | some (rows, s1) =>
      match genTxEvents pools purch days start n s1 with
      | none => none
      | some (more, s2) => some (rows ++ more, s2)

/-- `EcommerceDataGenerator.generate_transactions`; `now` is the value of
`datetime.now()` observed at the start of the call. -/
def generate_transactions (pools : Pools) (num_transactions days : ℕ)
    (now : ℤ) (s : GenState) : Option (List TxRow × GenState) :=
  let start := now - (days : ℤ) * 86400
  match sampleStr pools.users (purchaserCount pools.num_users) s with
  | none => none
  | some (purch, s1) =>
    match genTxEvents pools purch days start num_transactions s1 with
    | none => none
    | some (rows, s2) => some (List.insertionSort txLe rows, s2)

/-! ### Revenue analysis (`src/analytics/revenue_analysis.py`)

The transactions file is read back as a table; only the columns the script
aggregates are modelled.  Spark semantics used by the script:
  * `agg(sum(c))` / `agg(avg(c))` over an empty frame yield `null`
    (modelled by `Option`);
  * `groupBy(k)` produces one row per distinct key, in no particular order
    (we enumerate keys in first-occurrence order; every result the script
    returns is re-ordered by an explicit `orderBy`);
  * `to_date(timestamp)` truncates a timestamp to its calendar day
    (epoch seconds floor-divided by 86400). -/

/-- A row of `transactions.csv` as consumed by `calculate_revenue`. -/
structure Tx where
  amount : ℚ
  payment_method : String
  timestamp : ℤ
  status : String
  deriving DecidableEq

/-- `agg(sum("amount"))` followed by `collect()[0][...]`: `null` on an empty
frame, the sum otherwise. -/
def aggSum (l : List ℚ) : Option ℚ :=
  match l with
  | [] => none
  | _ => some l.sum

/-- `agg(avg("amount"))` followed by `collect()[0][...]`: `null` on an empty
frame, the mean otherwise. -/
def aggAvg (l : List ℚ) : Option ℚ :=
  match l with
  | [] => none
  | _ => some (l.sum / (l.length : ℚ))

/-- The distinct keys of a `groupBy`, in first-occurrence order. -/
def distinctBy {κ : Type} [DecidableEq κ] (f : Tx → κ) (l : List Tx) :
    List κ :=
  l.foldl (fun acc x => if f x ∈ acc then acc else acc ++ [f x]) []

/-- `to_date("timestamp")`: the calendar day of an epoch-seconds value. -/
def dateOf (ts : ℤ) : ℤ := ts.fdiv 86400

/-- `orderBy(col("count").desc())` comparison on status-count rows. -/
def descCount (a b : String × ℕ × Option ℚ) : Prop := b.2.1 ≤ a.2.1

instance descCountDec : DecidableRel descCount := fun _ _ => Nat.decLe _ _

instance descCountTotal : IsTotal (String × ℕ × Option ℚ) descCount :=
  ⟨fun a b => Nat.le_total b.2.1 a.2.1⟩

instance descCountTrans : IsTrans (String × ℕ × Option ℚ) descCount :=
  ⟨fun _ _ _ h1 h2 => Nat.le_trans h2 h1⟩

/-- `orderBy(col("revenue").desc())` comparison on payment-method rows. -/
def descQ (a b : String × ℚ) : Prop := b.2 ≤ a.2

instance descQDec : DecidableRel descQ := fun a b => Rat.instDecidableLe b.2 a.2

instance descQTotal : IsTotal (String × ℚ) descQ :=
  ⟨fun a b => le_total b.2 a.2⟩

instance descQTrans : IsTrans (String × ℚ) descQ :=
  ⟨fun _ _ _ h1 h2 => le_trans h2 h1⟩

/-- `orderBy("date")` comparison on daily-revenue rows. -/
def ascDate (a b : ℤ × ℚ) : Prop := a.1 ≤ b.1

instance ascDateDec : DecidableRel ascDate := fun a b => Int.decLe a.1 b.1

instance ascDateTotal : IsTotal (ℤ × ℚ) ascDate :=
  ⟨fun a b => Int.le_total a.1 b.1⟩

instance ascDateTrans : IsTrans (ℤ × ℚ) ascDate :=
  ⟨fun _ _ _ => Int.le_trans⟩

/-- One `groupBy("status").agg(count("*"), sum("amount"))` result row. -/
def statusAgg (txs : List Tx) (st : String) : String × ℕ × Option ℚ :=
  let g := txs.filter (fun t => t.status == st)
  (st, g.length, aggSum (g.map (fun t => t.amount)))

/-- The record returned by `calculate_revenue`. -/
structure RevenueMetrics where
  total_revenue : Option ℚ
  revenue_by_payment : List (String × ℚ)
  daily_revenue : List (ℤ × ℚ)
  avg_transaction_value : Option ℚ
  transaction_status_counts : List (String × ℕ × Option ℚ)

/-- `calculate_revenue` (the aggregation pipeline of
`src/analytics/revenue_analysis.py`, applied to the loaded rows). -/
def calculate_revenue (txs : List Tx) : RevenueMetrics :=
  let completed := txs.filter (fun t => t.status == "completed")
  { total_revenue := aggSum (completed.map (fun t => t.amount))
    revenue_by_payment :=
      List.insertionSort descQ
        ((distinctBy (fun t => t.payment_method) completed).map (fun pm =>
          (pm, ((completed.filter (fun t => t.payment_method == pm)).map
            (fun t => t.amount)).sum)))
    daily_revenue :=
      List.insertionSort ascDate
        ((distinctBy (fun t => dateOf t.timestamp) completed).map (fun d =>
          (d, ((completed.filter (fun t => dateOf t.timestamp == d)).map
            (fun t => t.amount)).sum)))
    avg_transaction_value := aggAvg (completed.map (fun t => t.amount))
    transaction_status_counts :=
      List.insertionSort descCount
        ((distinctBy (fun t => t.status) txs).map (statusAgg txs)) }

/-! ### Spec-side definitions (Revenue Aggregator consumer contract, §6/§8)

These restate the contract in the spec's words, to be compared with
`calculate_revenue`. -/

/-- Spec: total revenue = sum of `amount` where `status = completed`. -/
def specTotalRevenue (txs : List Tx) : ℚ :=
  ((txs.filter (fun t => t.status == "completed")).map
    (fun t => t.amount)).sum

/-- Spec: average `amount` where `status = completed`. -/
def specAvgTransaction (txs : List Tx) : ℚ :=
  specTotalRevenue txs /
    ((txs.filter (fun t => t.status == "completed")).length : ℚ)

/-- Spec: per-`status` row count. -/
def specStatusCount (txs : List Tx) (st : String) : ℕ :=
  (txs.filter (fun t => t.status == st)).length

/-- Spec: per-`status` total `amount`. -/
def specStatusAmount (txs : List Tx) (st : String) : ℚ :=
  ((txs.filter (fun t => t.status == st)).map (fun t => t.amount)).sum

/-! ### Oracles for concrete runs -/

/-- The all-zero oracle (every `random` draw reads `0`, every faker string is
empty). -/
def o0 : Oracle := { nat := fun _ => 0, str := fun _ => "" }

/-- Initial generator state over the all-zero oracle. -/
def st0 : GenState := { oracle := o0, npos := 0, spos := 0 }

/-! ### Lemmas on the random primitives -/

lemma randintN_fst_bounds (a b : ℕ) (s : GenState) (hab : a ≤ b) :
    a ≤ (randintN a b s).1 ∧ (randintN a b s).1 ≤ b := by
  have h : (randintN a b s).1 = a + s.oracle.nat s.npos % (b + 1 - a) := rfl
  have hpos : 0 < b + 1 - a := by omega
  have := Nat.mod_lt (s.oracle.nat s.npos) hpos
  omega

lemma choice_fst_mem {α : Type} {l : List α} {s : GenState} {a : α}
    (h : (choice l s).1 = some a) : a ∈ l := by
  have h2 : l.get? (s.oracle.nat s.npos % l.length) = some a := h
  exact List.get?_mem h2

lemma choicesW_fst_mem {α : Type} {l : List α} {ws : List ℕ} {s : GenState}
    {a : α} (h : (choicesW l ws s).1 = some a) : a ∈ l := by
  have h2 : l.get? (cumFind ws (s.oracle.nat s.npos % ws.sum)) = some a := h
  exact List.get?_mem h2

lemma choice_eq_some {α : Type} (l : List α) (s : GenState) (h : l ≠ []) :
    choice l s =
      (some (l.get ⟨s.oracle.nat s.npos % l.length,
        Nat.mod_lt _ (List.length_pos.2 h)⟩),
       { s with npos := s.npos + 1 }) := by
  have hlt : s.oracle.nat s.npos % l.length < l.length :=
    Nat.mod_lt _ (List.length_pos.2 h)
  simp [choice, nextNat, List.get?_eq_get hlt]

/-! ### Decimal rendering: correctness and injectivity -/

/-- The numeric value of a digit character. -/
def charVal (c : Char) : ℕ := c.toNat - 48

/-- The value of a little-endian digit list. -/
def ofDigitsLE : List ℕ → ℕ
  | [] => 0
  | d :: ds => d + 10 * ofDigitsLE ds

lemma ofDigitsLE_append (l1 l2 : List ℕ) :
    ofDigitsLE (l1 ++ l2) = ofDigitsLE l1 + 10 ^ l1.length * ofDigitsLE l2 := by
  induction l1 with
  | nil => simp [ofDigitsLE]
  | cons d ds ih =>
    have h1 : ofDigitsLE (d :: (ds ++ l2)) = d + 10 * ofDigitsLE (ds ++ l2) := rfl
    have h2 : ofDigitsLE (d :: ds) = d + 10 * ofDigitsLE ds := rfl
    rw [List.cons_append, h1, ih, h2, List.length_cons, pow_succ]
    ring

lemma ofDigitsLE_replicate_zero (k : ℕ) :
    ofDigitsLE (List.replicate k 0) = 0 := by
  induction k with
  | zero => rfl
  | succ k ih => simpa [List.replicate_succ, ofDigitsLE] using ih

lemma digitsLE_lt_ten :
    ∀ fuel n : ℕ, ∀ d ∈ digitsLE fuel n, d < 10 := by
  intro fuel
  induction fuel with
  | zero => intro n d hd; simp [digitsLE] at hd
  | succ fuel ih =>
    intro n d hd
    rw [digitsLE] at hd
    by_cases h : n = 0
    · simp [h] at hd
    · simp only [h, if_false, List.mem_cons] at hd
      rcases hd with h1 | h2
      · subst h1; exact Nat.mod_lt _ (by norm_num)
      · exact ih _ _ h2

lemma ofDigitsLE_digitsLE :
    ∀ fuel n : ℕ, n ≤ fuel → ofDigitsLE (digitsLE fuel n) = n := by
  intro fuel
  induction fuel with
  | zero => intro n hn; interval_cases n; rfl
  | succ fuel ih =>
    intro n hn
    rw [digitsLE]
    by_cases h : n = 0
    · simp [h, ofDigitsLE]
    · have hdiv : n / 10 ≤ fuel := by
        have := Nat.div_lt_self (Nat.pos_of_ne_zero h) (by norm_num : 1 < 10)
        omega
      simp only [h, if_false, ofDigitsLE, ih _ hdiv]
      omega

lemma charVal_digitChar {d : ℕ} (hd : d < 10) : charVal (digitChar d) = d := by
  have h : ∀ e, e < 10 → charVal (digitChar e) = e := by decide
  exact h d hd

lemma decode_padChars (w n : ℕ) :
    ofDigitsLE (((padChars w n).map charVal).reverse) = n := by
  unfold padChars natChars
  rw [List.map_append, List.map_reverse, List.map_map, List.reverse_append,
    List.reverse_reverse]
  have hmap : (digitsLE n n).map (charVal ∘ digitChar) = digitsLE n n := by
    have h2 : (digitsLE n n).map (charVal ∘ digitChar) = (digitsLE n n).map id :=
      List.map_congr_left (fun d hd => charVal_digitChar (digitsLE_lt_ten n n d hd))
    rw [h2, List.map_id]
  have hrep : (List.replicate (w - (((digitsLE n n).map digitChar).reverse).length) '0').map
      charVal = List.replicate (w - (((digitsLE n n).map digitChar).reverse).length) 0 := by
    rw [List.map_replicate]; rfl
  rw [hmap, hrep, List.reverse_replicate, ofDigitsLE_append,
    ofDigitsLE_replicate_zero, ofDigitsLE_digitsLE n n le_rfl]
  ring

lemma padChars_injective (w : ℕ) : Function.Injective (padChars w) := by
  intro i j h
  have hi := decode_padChars w i
  rw [h, decode_padChars w j] at hi
  omega

lemma data_append (a b : String) : (a ++ b).data = a.data ++ b.data := rfl

lemma productId_injective : Function.Injective productId := by
  intro i j h
  have hd : "product_".data ++ padChars 4 i = "product_".data ++ padChars 4 j :=
    congrArg String.data h
  exact padChars_injective 4 (List.append_cancel_left hd)

lemma userId_injective : Function.Injective userId := by
  intro i j h
  have hd : "user_".data ++ padChars 6 i = "user_".data ++ padChars 6 j :=
    congrArg String.data h
  exact padChars_injective 6 (List.append_cancel_left hd)

lemma users_length (n p : ℕ) : (mkPools n p).users.length = n := by
  simp [mkPools]

lemma users_nodup (n p : ℕ) : (mkPools n p).users.Nodup :=
  (List.nodup_range n).map userId_injective

/-! ### Totality and shape of the product generator -/

lemma brands_ne_nil {c : String} (hc : c ∈ categories) : brands c ≠ [] := by
  have h : ∀ x ∈ categories, brands x ≠ [] := by decide
  exact h c hc

lemma genProduct_some (pid : String) (s0 : GenState) :
    ∃ p s1, genProduct pid s0 = some (p, s1) ∧ p.product_id = pid := by
  have hlen : 0 < categories.length := by decide
  have h0 : categories.get? (s0.oracle.nat s0.npos % categories.length) =
      some (categories.get ⟨s0.oracle.nat s0.npos % categories.length,
        Nat.mod_lt _ hlen⟩) :=
    List.get?_eq_get _
  have h2 : categories.get? (s0.oracle.nat (s0.npos + 1) % categories.length) =
      some (categories.get ⟨s0.oracle.nat (s0.npos + 1) % categories.length,
        Nat.mod_lt _ hlen⟩) :=
    List.get?_eq_get _
  have hblen : 0 < (brands (categories.get
      ⟨s0.oracle.nat s0.npos % categories.length, Nat.mod_lt _ hlen⟩)).length :=
    List.length_pos.2 (brands_ne_nil (List.get_mem _ _ _))
  have h3 : (brands (categories.get ⟨s0.oracle.nat s0.npos % categories.length,
      Nat.mod_lt _ hlen⟩)).get? (s0.oracle.nat (s0.npos + 1 + 1 + 1) %
        (brands (categories.get ⟨s0.oracle.nat s0.npos % categories.length,
          Nat.mod_lt _ hlen⟩)).length) =
      some ((brands (categories.get ⟨s0.oracle.nat s0.npos % categories.length,
        Nat.mod_lt _ hlen⟩)).get ⟨_, Nat.mod_lt _ hblen⟩) :=
    List.get?_eq_get _
  simp only [genProduct, choice, nextNat, nextStr, uniform, randintN, h0, h2, h3]
  exact ⟨_, _, rfl, rfl⟩

lemma genProductsAux_spec (ids : List String) :
    ∀ s : GenState, ∃ rows s1, genProductsAux ids s = some (rows, s1) ∧
      rows.map Product.product_id = ids := by
  induction ids with
  | nil => exact fun s => ⟨[], s, rfl, rfl⟩
  | cons pid rest ih =>
    intro s
    obtain ⟨p, s1, hp, hpid⟩ := genProduct_some pid s
    obtain ⟨rows, s2, hrows, hmap⟩ := ih s1
    refine ⟨p :: rows, s2, ?_, ?_⟩
    · simp only [genProductsAux, hp, hrows]
    · simp [hmap, hpid]

/-! ### Timestamp bounds for generated rows -/

lemma mod_succ_le (r days : ℕ) : r % (days + 1 - 0) ≤ days := by
  have := Nat.mod_lt r (show 0 < days + 1 - 0 by omega)
  omega

lemma genLogRow_bounds {pools : Pools} {days : ℕ} {start : ℤ} {s0 : GenState}
    {row : LogRow} {s1 : GenState}
    (h : genLogRow pools days start s0 = some (row, s1)) :
    start ≤ row.timestamp ∧
      row.timestamp ≤ start + (days : ℤ) * 86400 + 86399 := by
  simp only [genLogRow, choice, choicesW, nextNat, nextStr, randintN] at h
  split at h
  · exact absurd h (by simp)
  · split at h
    · exact absurd h (by simp)
    · split at h
      · exact absurd h (by simp)
      · split at h
        · exact absurd h (by simp)
        · simp only [Option.some.injEq, Prod.mk.injEq] at h
          obtain ⟨hrow, -⟩ := h
          subst hrow
          have h1 := mod_succ_le (s0.oracle.nat (s0.npos + 1)) days
          have h2 := Nat.mod_lt (s0.oracle.nat (s0.npos + 1 + 1))
            (show 0 < 23 + 1 - 0 by omega)
          have h3 := Nat.mod_lt (s0.oracle.nat (s0.npos + 1 + 1 + 1))
            (show 0 < 59 + 1 - 0 by omega)
          have h4 := Nat.mod_lt (s0.oracle.nat (s0.npos + 1 + 1 + 1 + 1))
            (show 0 < 59 + 1 - 0 by omega)
          constructor <;> · dsimp only; omega

lemma genLogsAux_bounds {pools : Pools} {days : ℕ} {start : ℤ} :
    ∀ (n : ℕ) (s : GenState) (rows : List LogRow) (s1 : GenState),
      genLogsAux pools days start n s = some (rows, s1) →
      ∀ row ∈ rows, start ≤ row.timestamp ∧
        row.timestamp ≤ start + (days : ℤ) * 86400 + 86399 := by
  intro n
  induction n with
  | zero =>
    intro s rows s1 h row hrow
    simp only [genLogsAux, Option.some.injEq, Prod.mk.injEq] at h
    obtain ⟨hr, -⟩ := h
    rw [← hr] at hrow
    exact absurd hrow (List.not_mem_nil row)
  | succ n ih =>
    intro s rows s1 h row hrow
    rw [genLogsAux] at h
    split at h
    · exact absurd h (by simp)
    · rename_i prow ps hp
      split at h
      · exact absurd h (by simp)
      · rename_i qrows qs hq
        simp only [Option.some.injEq, Prod.mk.injEq] at h
        obtain ⟨hr, -⟩ := h
        rw [← hr] at hrow
        rcases List.mem_cons.mp hrow with h1 | h2
        · rw [h1]
          exact genLogRow_bounds hp
        · exact ih _ _ _ hq row h2

lemma generate_user_logs_bounds {pools : Pools} {num_logs days : ℕ} {now : ℤ}
    {s : GenState} {rows : List LogRow} {s1 : GenState}
    (h : generate_user_logs pools num_logs days now s = some (rows, s1)) :
    ∀ row ∈ rows, now - (days : ℤ) * 86400 ≤ row.timestamp ∧
      row.timestamp ≤ now + 86399 := by
  intro row hrow
  rw [generate_user_logs] at h
  split at h
  · exact absurd h (by simp)
  · rename_i lrows ls hp
    simp only [Option.some.injEq, Prod.mk.injEq] at h
    obtain ⟨hr, -⟩ := h
    rw [← hr] at hrow
    have hmem : row ∈ lrows := (List.mem_insertionSort logLe).mp hrow
    have := genLogsAux_bounds num_logs s lrows ls hp row hmem
    omega

/-! ### Properties of the `random.sample` model -/

lemma get_not_mem_eraseIdx (l : List String) (i : ℕ) (h : i < l.length)
    (hn : l.Nodup) : l.get ⟨i, h⟩ ∉ l.eraseIdx i := by
  intro hmem
  rw [List.mem_eraseIdx_iff_getElem] at hmem
  obtain ⟨j, hj, hji, hget⟩ := hmem
  have hg : l.get ⟨i, h⟩ = l[i] := rfl
  rw [hg] at hget
  exact hji ((List.Nodup.getElem_inj_iff hn).mp hget)

lemma sampleGo_length :
    ∀ (k : ℕ) (l : List String) (s : GenState),
      k ≤ l.length → ((sampleGo k l s).1).length = k := by
  intro k
  induction k with
  | zero => intro l s _; rfl
  | succ k ih =>
    intro l s h
    have hpos : 0 < l.length := by omega
    have hlt : s.oracle.nat s.npos % l.length < l.length := Nat.mod_lt _ hpos
    have hlen : (l.eraseIdx (s.oracle.nat s.npos % l.length)).length =
        l.length - 1 := List.length_eraseIdx_of_lt hlt
    have hk : k ≤ (l.eraseIdx (s.oracle.nat s.npos % l.length)).length := by
      omega
    simp only [sampleGo, nextNat, List.get?_eq_get hlt, List.length_cons,
      ih _ _ hk]

lemma sampleGo_subset :
    ∀ (k : ℕ) (l : List String) (s : GenState),
      ∀ x ∈ (sampleGo k l s).1, x ∈ l := by
  intro k
  induction k with
  | zero => intro l s x hx; exact absurd hx (List.not_mem_nil x)
  | succ k ih =>
    intro l s x hx
    simp only [sampleGo, nextNat] at hx
    rcases hget : l.get? (s.oracle.nat s.npos % l.length) with - | u
    · rw [hget] at hx
      exact absurd hx (List.not_mem_nil x)
    · rw [hget] at hx
      rcases List.mem_cons.mp hx with h1 | h2
      · rw [h1]; exact List.get?_mem hget
      · exact (List.eraseIdx_sublist l _).mem (ih _ _ x h2)

lemma sampleGo_nodup :
    ∀ (k : ℕ) (l : List String) (s : GenState),
      l.Nodup → ((sampleGo k l s).1).Nodup := by
  intro k
  induction k with
  | zero => intro l s _; exact List.nodup_nil
  | succ k ih =>
    intro l s hn
    simp only [sampleGo, nextNat]
    rcases hget : l.get? (s.oracle.nat s.npos % l.length) with - | u
    · exact List.nodup_nil
    · have hlt : s.oracle.nat s.npos % l.length < l.length := by
        rcases Nat.lt_or_ge (s.oracle.nat s.npos % l.length) l.length with h | h
        · exact h
        · rw [List.get?_eq_none.2 h] at hget; exact absurd hget (by simp)
      have hu : u = l.get ⟨s.oracle.nat s.npos % l.length, hlt⟩ := by
        rw [List.get?_eq_get hlt] at hget
        exact (Option.some.inj hget).symm
      refine List.nodup_cons.mpr ⟨?_, ih _ _ ((hn.sublist ?_ : _))⟩
      · intro hmem
        have := sampleGo_subset k _ _ u hmem
        rw [hu] at this
        exact get_not_mem_eraseIdx l _ hlt hn this
      · exact List.eraseIdx_sublist l _

lemma sampleStr_zero (l : List String) (s : GenState) :
    sampleStr l 0 s = some ([], s) := by
  rw [sampleStr, if_pos (Nat.zero_le l.length)]
  rfl

lemma sampleStr_eq_some {l : List String} {k : ℕ} {s : GenState}
    {pr : List String} {s2 : GenState}
    (h : sampleStr l k s = some (pr, s2)) :
    pr = (sampleGo k l s).1 ∧ k ≤ l.length := by
  unfold sampleStr at h
  split at h
  · rename_i hk
    simp only [Option.some.injEq] at h
    exact ⟨by rw [h], hk⟩
  · exact absurd h (by simp)

/-! ### Traversal facts for generated transactions -/

lemma genTxLine_fields {pools : Pools} {u : String} {ts : ℤ} {s0 : GenState}
    {row : TxRow} {s1 : GenState}
    (h : genTxLine pools u ts s0 = some (row, s1)) :
    row.user_id = u ∧ row.timestamp = ts ∧
      row.amount = round2 (row.unit_price * (row.quantity : ℚ)) := by
  simp only [genTxLine, choice, choicesW, nextNat, nextStr, uniform] at h
  split at h
  · exact absurd h (by simp)
  · split at h
    · exact absurd h (by simp)
    · split at h
      · exact absurd h (by simp)
      · split at h
        · exact absurd h (by simp)
        · simp only [Option.some.injEq, Prod.mk.injEq] at h
          obtain ⟨hrow, -⟩ := h
          subst hrow
          exact ⟨rfl, rfl, rfl⟩

lemma genTxLines_fields {pools : Pools} {u : String} {ts : ℤ} :
    ∀ (n : ℕ) (s : GenState) (rows : List TxRow) (s1 : GenState),
      genTxLines pools u ts n s = some (rows, s1) →
      ∀ row ∈ rows, row.user_id = u ∧ row.timestamp = ts ∧
        row.amount = round2 (row.unit_price * (row.quantity : ℚ)) := by
  intro n
  induction n with
  | zero =>
    intro s rows s1 h row hrow
    simp only [genTxLines, Option.some.injEq, Prod.mk.injEq] at h
    obtain ⟨hr, -⟩ := h
    rw [← hr] at hrow
    exact absurd hrow (List.not_mem_nil row)
  | succ n ih =>
    intro s rows s1 h row hrow
    rw [genTxLines] at h
    split at h
    · exact absurd h (by simp)
    · rename_i prow ps hp
      split at h
      · exact absurd h (by simp)
      · rename_i qrows qs hq
        simp only [Option.some.injEq, Prod.mk.injEq] at h
        obtain ⟨hr, -⟩ := h
        rw [← hr] at hrow
        rcases List.mem_cons.mp hrow with h1 | h2
        · rw [h1]
          exact genTxLine_fields hp
        · exact ih _ _ _ hq row h2

lemma genTxEvent_fields {pools : Pools} {purch : List String} {days : ℕ}
    {start : ℤ} {s0 : GenState} {rows : List TxRow} {s1 : GenState}
    (h : genTxEvent pools purch days start s0 = some (rows, s1)) :
    ∀ row ∈ rows, row.user_id ∈ purch ∧
      (start ≤ row.timestamp ∧
        row.timestamp ≤ start + (days : ℤ) * 86400 + 86340) ∧
      row.amount = round2 (row.unit_price * (row.quantity : ℚ)) := by
  simp only [genTxEvent, choice, choicesW, nextNat, randintN] at h
  split at h
  · exact absurd h (by simp)
  · rename_i u hu
    split at h
    · exact absurd h (by simp)
    · rename_i ni hni
      intro row hrow
      obtain ⟨h1, h2, h3⟩ := genTxLines_fields ni _ rows s1 h row hrow
      refine ⟨?_, ?_, h3⟩
      · rw [h1]; exact List.get?_mem hu
      · rw [h2]
        have hd := mod_succ_le (s0.oracle.nat (s0.npos + 1)) days
        have hh := Nat.mod_lt (s0.oracle.nat (s0.npos + 1 + 1))
          (show 0 < 23 + 1 - 0 by omega)
        have hm := Nat.mod_lt (s0.oracle.nat (s0.npos + 1 + 1 + 1))
          (show 0 < 59 + 1 - 0 by omega)
        constructor <;> omega

lemma genTxEvents_fields {pools : Pools} {purch : List String} {days : ℕ}
    {start : ℤ} :
    ∀ (n : ℕ) (s : GenState) (rows : List TxRow) (s1 : GenState),
      genTxEvents pools purch days start n s = some (rows, s1) →
      ∀ row ∈ rows, row.user_id ∈ purch ∧
        (start ≤ row.timestamp ∧
          row.timestamp ≤ start + (days : ℤ) * 86400 + 86340) ∧
        row.amount = round2 (row.unit_price * (row.quantity : ℚ)) := by
  intro n
  induction n with
  | zero =>
    intro s rows s1 h row hrow
    simp only [genTxEvents, Option.some.injEq, Prod.mk.injEq] at h
    obtain ⟨hr, -⟩ := h
    rw [← hr] at hrow
    exact absurd hrow (List.not_mem_nil row)
  | succ n ih =>
    intro s rows s1 h row hrow
    rw [genTxEvents] at h
    split at h
    · exact absurd h (by simp)
    · rename_i prows ps hp
      split at h
      · exact absurd h (by simp)
      · rename_i qrows qs hq
        simp only [Option.some.injEq, Prod.mk.injEq] at h
        obtain ⟨hr, -⟩ := h
        rw [← hr] at hrow
        rcases List.mem_append.mp hrow with h1 | h2
        · exact genTxEvent_fields hp row h1
        · exact ih _ _ _ hq row h2

lemma generate_transactions_fields {pools : Pools} {ntx days : ℕ} {now : ℤ}
    {s : GenState} {rows : List TxRow} {s1 : GenState}
    (h : generate_transactions pools ntx days now s = some (rows, s1)) :
    ∀ row ∈ rows,
      row.user_id ∈ (sampleGo (purchaserCount pools.num_users) pools.users s).1 ∧
      (now - (days : ℤ) * 86400 ≤ row.timestamp ∧
        row.timestamp ≤ now + 86340) ∧
      row.amount = round2 (row.unit_price * (row.quantity : ℚ)) := by
  intro row hrow
  rw [generate_transactions] at h
  split at h
  · exact absurd h (by simp)
  · rename_i purch s2 hsamp
    split at h
    · exact absurd h (by simp)
    · rename_i trows ts2 htx
      simp only [Option.some.injEq, Prod.mk.injEq] at h
      obtain ⟨hr, -⟩ := h
      rw [← hr] at hrow
      have hmem : row ∈ trows := (List.mem_insertionSort txLe).mp hrow
      obtain ⟨hpr, -⟩ := sampleStr_eq_some hsamp
      obtain ⟨hu, hb, ha⟩ := genTxEvents_fields ntx _ trows ts2 htx row hmem
      rw [hpr] at hu
      exact ⟨hu, by omega, ha⟩

/-! ### Clock dependence: shifting the observed `datetime.now()` value -/

/-- Shift a log row timestamp by `δ` seconds. -/
def shiftLog (δ : ℤ) (r : LogRow) : LogRow := { r with timestamp := r.timestamp + δ }

/-- Shift a transaction row timestamp by `δ` seconds. -/
def shiftTx (δ : ℤ) (r : TxRow) : TxRow := { r with timestamp := r.timestamp + δ }

lemma genLogRow_shift (pools : Pools) (days : ℕ) (start δ : ℤ)
    (s0 : GenState) :
    genLogRow pools days (start + δ) s0 =
      (genLogRow pools days start s0).map (fun p => (shiftLog δ p.1, p.2)) := by
  simp only [genLogRow, choice, choicesW, nextNat, nextStr, randintN]
  split
  · rfl
  · split
    · rfl
    · split
      · rfl
      · split
        · rfl
        · simp only [Option.map_some', Prod.mk.injEq, Option.some.injEq,
            shiftLog, LogRow.mk.injEq, true_and, and_true]
          omega

lemma genLogsAux_shift (pools : Pools) (days : ℕ) (start δ : ℤ) :
    ∀ (n : ℕ) (s : GenState),
      genLogsAux pools days (start + δ) n s =
        (genLogsAux pools days start n s).map
          (fun p => (p.1.map (shiftLog δ), p.2)) := by
  intro n
  induction n with
  | zero => intro s; rfl
  | succ n ih =>
    intro s
    rw [genLogsAux, genLogsAux, genLogRow_shift]
    rcases genLogRow pools days start s with - | p
    · rfl
    · simp only [Option.map_some']
      rw [ih p.2]
      rcases genLogsAux pools days start n p.2 with - | q
      · rfl
      · simp

lemma insertionSort_map_shiftLog (δ : ℤ) (l : List LogRow) :
    List.insertionSort logLe (l.map (shiftLog δ)) =
      (List.insertionSort logLe l).map (shiftLog δ) :=
  (List.map_insertionSort logLe logLe (shiftLog δ) l (fun a _ b _ => by
    simp only [logLe, shiftLog]
    omega)).symm

lemma generate_user_logs_shift (pools : Pools) (num_logs days : ℕ)
    (now1 now2 : ℤ) (s : GenState) :
    generate_user_logs pools num_logs days now2 s =
      (generate_user_logs pools num_logs days now1 s).map
        (fun p => (p.1.map (shiftLog (now2 - now1)), p.2)) := by
  simp only [generate_user_logs]
  have hstart : now2 - (days : ℤ) * 86400 =
      (now1 - (days : ℤ) * 86400) + (now2 - now1) := by ring
  rw [hstart, genLogsAux_shift]
  rcases genLogsAux pools days (now1 - (days : ℤ) * 86400) num_logs s with - | p
  · rfl
  · simp [insertionSort_map_shiftLog]

lemma genTxLine_shift (pools : Pools) (u : String) (ts1 ts2 δ : ℤ)
    (hts : ts2 = ts1 + δ) (s0 : GenState) :
    genTxLine pools u ts2 s0 =
      (genTxLine pools u ts1 s0).map (fun p => (shiftTx δ p.1, p.2)) := by
  simp only [genTxLine, choice, choicesW, nextNat, nextStr, uniform]
  split
  · rfl
  · split
    · rfl
    · split
      · rfl
      · split
        · rfl
        · simp only [Option.map_some', Prod.mk.injEq, Option.some.injEq,
            shiftTx, TxRow.mk.injEq, true_and, and_true]
          omega

lemma genTxLines_shift (pools : Pools) (u : String) (ts1 ts2 δ : ℤ)
    (hts : ts2 = ts1 + δ) :
    ∀ (n : ℕ) (s : GenState),
      genTxLines pools u ts2 n s =
        (genTxLines pools u ts1 n s).map
          (fun p => (p.1.map (shiftTx δ), p.2)) := by
  intro n
  induction n with
  | zero => intro s; rfl
  | succ n ih =>
    intro s
    rw [genTxLines, genTxLines, genTxLine_shift pools u ts1 ts2 δ hts]
    rcases genTxLine pools u ts1 s with - | p
    · rfl
    · simp only [Option.map_some']
      rw [ih p.2]
      rcases genTxLines pools u ts1 n p.2 with - | q
      · rfl
      · simp

lemma genTxEvent_shift (pools : Pools) (purch : List String) (days : ℕ)
    (start δ : ℤ) (s0 : GenState) :
    genTxEvent pools purch days (start + δ) s0 =
      (genTxEvent pools purch days start s0).map
        (fun p => (p.1.map (shiftTx δ), p.2)) := by
  simp only [genTxEvent, choice, choicesW, nextNat, randintN]
  split
  · rfl
  · split
    · rfl
    · exact genTxLines_shift pools _ _ _ δ (by ring) _ _

lemma genTxEvents_shift (pools : Pools) (purch : List String) (days : ℕ)
    (start δ : ℤ) :
    ∀ (n : ℕ) (s : GenState),
      genTxEvents pools purch days (start + δ) n s =
        (genTxEvents pools purch days start n s).map
          (fun p => (p.1.map (shiftTx δ), p.2)) := by
  intro n
  induction n with
  | zero => intro s; rfl
  | succ n ih =>
    intro s
    rw [genTxEvents, genTxEvents, genTxEvent_shift]
    rcases genTxEvent pools purch days start s with - | p
    · rfl
    · simp only [Option.map_some']
      rw [ih p.2]
      rcases genTxEvents pools purch days start n p.2 with - | q
      · rfl
      · simp

lemma insertionSort_map_shiftTx (δ : ℤ) (l : List TxRow) :
    List.insertionSort txLe (l.map (shiftTx δ)) =
      (List.insertionSort txLe l).map (shiftTx δ) :=
  (List.map_insertionSort txLe txLe (shiftTx δ) l (fun a _ b _ => by
    simp only [txLe, shiftTx]
    omega)).symm

lemma generate_transactions_shift (pools : Pools) (ntx days : ℕ)
    (now1 now2 : ℤ) (s : GenState) :
    generate_transactions pools ntx days now2 s =
      (generate_transactions pools ntx days now1 s).map
        (fun p => (p.1.map (shiftTx (now2 - now1)), p.2)) := by
  simp only [generate_transactions]
  have hstart : now2 - (days : ℤ) * 86400 =
      (now1 - (days : ℤ) * 86400) + (now2 - now1) := by ring
  rw [hstart]
  rcases sampleStr pools.users (purchaserCount pools.num_users) s with - | p
  · rfl
  · simp only [genTxEvents_shift]
    rcases genTxEvents pools p.1 days (now1 - (days : ℤ) * 86400) ntx p.2
      with - | q
    · rfl
    · simp [insertionSort_map_shiftTx]

/-! ### Lemmas on the aggregation pipeline -/

lemma aggSum_ne_nil {l : List ℚ} (h : l ≠ []) : aggSum l = some l.sum := by
  rcases l with - | ⟨a, t⟩
  · exact absurd rfl h
  · rfl

lemma aggAvg_ne_nil {l : List ℚ} (h : l ≠ []) :
    aggAvg l = some (l.sum / (l.length : ℚ)) := by
  rcases l with - | ⟨a, t⟩
  · exact absurd rfl h
  · rfl

lemma distinctBy_aux_mem {κ : Type} [DecidableEq κ] (f : Tx → κ) :
    ∀ (l : List Tx) (acc : List κ) (x : κ),
      (x ∈ l.foldl (fun acc t => if f t ∈ acc then acc else acc ++ [f t]) acc ↔
        x ∈ acc ∨ x ∈ l.map f) := by
  intro l
  induction l with
  | nil => intro acc x; simp
  | cons t ts ih =>
    intro acc x
    simp only [List.foldl_cons, List.map_cons, List.mem_cons]
    by_cases h : f t ∈ acc
    · rw [if_pos h, ih]
      constructor
      · rintro (h1 | h2)
        · exact Or.inl h1
        · exact Or.inr (Or.inr h2)
      · rintro (h1 | rfl | h3)
        · exact Or.inl h1
        · exact Or.inl h
        · exact Or.inr h3
    · rw [if_neg h, ih]
      simp only [List.mem_append, List.mem_singleton]
      tauto

lemma distinctBy_aux_nodup {κ : Type} [DecidableEq κ] (f : Tx → κ) :
    ∀ (l : List Tx) (acc : List κ), acc.Nodup →
      (l.foldl (fun acc t => if f t ∈ acc then acc else acc ++ [f t])
        acc).Nodup := by
  intro l
  induction l with
  | nil => intro acc h; exact h
  | cons t ts ih =>
    intro acc hacc
    simp only [List.foldl_cons]
    by_cases h : f t ∈ acc
    · rw [if_pos h]; exact ih acc hacc
    · rw [if_neg h]
      refine ih _ (List.nodup_append.mpr ⟨hacc, List.nodup_singleton _, ?_⟩)
      intro x hx hx2
      rw [List.mem_singleton] at hx2
      rw [hx2] at hx
      exact h hx

lemma distinctBy_mem {κ : Type} [DecidableEq κ] (f : Tx → κ) (l : List Tx)
    (x : κ) : x ∈ distinctBy f l ↔ x ∈ l.map f := by
  rw [distinctBy, distinctBy_aux_mem]
  simp

lemma distinctBy_nodup {κ : Type} [DecidableEq κ] (f : Tx → κ) (l : List Tx) :
    (distinctBy f l).Nodup :=
  distinctBy_aux_nodup f l [] List.nodup_nil

lemma filter_status_ne_nil {txs : List Tx} {st : String} {t : Tx}
    (ht : t ∈ txs) (hst : t.status = st) :
    txs.filter (fun t => t.status == st) ≠ [] := by
  have hmem : t ∈ txs.filter (fun t => t.status == st) :=
    List.mem_filter.mpr ⟨ht, by simp [hst]⟩
  intro h
  rw [h] at hmem
  exact absurd hmem (List.not_mem_nil t)

/-! ### Claim theorems -/

/-- C8: for every N ≥ 0, `generate_products` on a pool built with
`numProducts = N` succeeds and returns exactly N rows whose `product_id`
values are pairwise distinct and are exactly the zero-padded identifiers
`product_0000` through `product_{N-1}`, in order. -/
theorem generate_products_rows (n N : ℕ) (s : GenState) :
    ∃ rows s1, generate_products (mkPools n N) s = some (rows, s1) ∧
      rows.length = N ∧
      rows.map Product.product_id = (List.range N).map productId ∧
      (rows.map Product.product_id).Nodup := by
  obtain ⟨rows, s1, h, hmap⟩ := genProductsAux_spec (mkPools n N).products s
  have hprod : (mkPools n N).products = (List.range N).map productId := rfl
  refine ⟨rows, s1, h, ?_, ?_, ?_⟩
  · have h2 := congrArg List.length hmap
    simpa [mkPools] using h2
  · rw [hmap, hprod]
  · rw [hmap, hprod]
    exact (List.nodup_range N).map productId_injective

/-- C9: on a transactions table with no `completed` row, `calculate_revenue`
returns `null` (None) for both `total_revenue` and `avg_transaction_value`,
not 0. -/
theorem calculate_revenue_no_completed_null (txs : List Tx)
    (h : ∀ t ∈ txs, t.status ≠ "completed") :
    (calculate_revenue txs).total_revenue = none ∧
      (calculate_revenue txs).avg_transaction_value = none := by
  have hfil : txs.filter (fun t => t.status == "completed") = [] :=
    List.filter_eq_nil_iff.mpr (fun t ht => by simp [h t ht])
  constructor
  · show aggSum ((txs.filter (fun t => t.status == "completed")).map
      (fun t => t.amount)) = none
    rw [hfil]
    rfl
  · show aggAvg ((txs.filter (fun t => t.status == "completed")).map
      (fun t => t.amount)) = none
    rw [hfil]
    rfl

/-- A one-row all-pending transactions table. -/
def pendRow : Tx :=
  { amount := 50, payment_method := "paypal", timestamp := 0,
    status := "pending" }

/-- Witness for C9 at a concrete one-row pending table. -/
theorem calculate_revenue_no_completed_null_witness :
    (∀ t ∈ [pendRow], t.status ≠ "completed") ∧
    (calculate_revenue [pendRow]).total_revenue = none ∧
    (calculate_revenue [pendRow]).avg_transaction_value = none := by
  refine ⟨by decide, ?_⟩
  exact calculate_revenue_no_completed_null _ (by decide)

/-- C10: when the user pool is so small that `int(numUsers * 0.3) = 0`
(that is, numUsers ≤ 3), `generate_transactions` with at least one requested
transaction fails (raises on `random.choice` over the empty purchaser
subset) instead of returning a table. -/
theorem generate_transactions_small_pool_fails (n p ntx days : ℕ) (now : ℤ)
    (s : GenState) (hn : n ≤ 3) (htx : 1 ≤ ntx) :
    generate_transactions (mkPools n p) ntx days now s = none := by
  obtain ⟨k, rfl⟩ : ∃ k, ntx = k + 1 := ⟨ntx - 1, by omega⟩
  have hcount : purchaserCount (mkPools n p).num_users = 0 := by
    simp only [purchaserCount, mkPools]
    omega
  simp only [generate_transactions, hcount, sampleStr_zero]
  rfl

/-- Witness for C10 with three users and one requested transaction. -/
theorem generate_transactions_small_pool_fails_witness :
    (3 : ℕ) ≤ 3 ∧ (1 : ℕ) ≤ 1 ∧
      generate_transactions (mkPools 3 5) 1 30 0 st0 = none :=
  ⟨le_refl 3, le_refl 1,
    generate_transactions_small_pool_fails 3 5 1 30 0 st0 (by decide) (by decide)⟩

/-- C6: every transaction line satisfies
`amount = round(unit_price * quantity, 2)`. -/
theorem transaction_amount_round_eq (pools : Pools) (ntx days : ℕ) (now : ℤ)
    (s : GenState) (rows : List TxRow) (s1 : GenState)
    (h : generate_transactions pools ntx days now s = some (rows, s1)) :
    ∀ row ∈ rows, row.amount = round2 (row.unit_price * (row.quantity : ℚ)) :=
  fun row hrow => (generate_transactions_fields h row hrow).2.2

/-- Witness for C6 on a concrete successful run. -/
theorem transaction_amount_round_eq_witness :
    ∃ rows s1, generate_transactions (mkPools 4 1) 1 30 0 st0 =
        some (rows, s1) ∧
      ∀ row ∈ rows, row.amount = round2 (row.unit_price * (row.quantity : ℚ)) := by
  refine ⟨_, _, rfl, ?_⟩
  exact transaction_amount_round_eq (mkPools 4 1) 1 30 0 st0 _ _ rfl

/-- C7: the tables returned by `generate_user_logs` and
`generate_transactions` are non-decreasing in `timestamp`: every consecutive
pair of rows is ordered. -/
theorem outputs_sorted_by_timestamp :
    (∀ (pools : Pools) (num_logs days : ℕ) (now : ℤ) (s : GenState)
        (rows : List LogRow) (s1 : GenState),
      generate_user_logs pools num_logs days now s = some (rows, s1) →
      List.Chain' (fun a b => a.timestamp ≤ b.timestamp) rows) ∧
    (∀ (pools : Pools) (ntx days : ℕ) (now : ℤ) (s : GenState)
        (rows : List TxRow) (s1 : GenState),
      generate_transactions pools ntx days now s = some (rows, s1) →
      List.Chain' (fun a b => a.timestamp ≤ b.timestamp) rows) := by
  constructor
  · intro pools num_logs days now s rows s1 h
    simp only [generate_user_logs] at h
    split at h
    · exact absurd h (by simp)
    · rename_i lrows ls hp
      simp only [Option.some.injEq, Prod.mk.injEq] at h
      obtain ⟨hr, -⟩ := h
      rw [← hr]
      exact (List.sorted_insertionSort logLe lrows).chain'
  · intro pools ntx days now s rows s1 h
    rw [generate_transactions] at h
    split at h
    · exact absurd h (by simp)
    · rename_i purch s2 hsamp
      split at h
      · exact absurd h (by simp)
      · rename_i trows ts2 htx
        simp only [Option.some.injEq, Prod.mk.injEq] at h
        obtain ⟨hr, -⟩ := h
        rw [← hr]
        exact (List.sorted_insertionSort txLe trows).chain'

/-- Witness for C7 on concrete successful runs of both generators. -/
theorem outputs_sorted_by_timestamp_witness :
    ∃ lrows ls trows ts,
      generate_user_logs (mkPools 1 1) 2 30 0 st0 = some (lrows, ls) ∧
      generate_transactions (mkPools 4 1) 1 30 0 st0 = some (trows, ts) ∧
      List.Chain' (fun a b => a.timestamp ≤ b.timestamp) lrows ∧
      List.Chain' (fun a b => a.timestamp ≤ b.timestamp) trows := by
  refine ⟨_, _, _, _, rfl, rfl, ?_, ?_⟩
  · exact outputs_sorted_by_timestamp.1 (mkPools 1 1) 2 30 0 st0 _ _ rfl
  · exact outputs_sorted_by_timestamp.2 (mkPools 4 1) 1 30 0 st0 _ _ rfl

/-- An oracle on which the first category draw of the single generated
product lands on Electronics and the redrawn category field lands on
Clothing (draw 1 reads 1, the brand draw 3 reads 3, all other draws 0). -/
def tapeC1 : GenState :=
  { oracle := { nat := fun i => if i = 1 then 1 else if i = 3 then 3 else 0,
                str := fun _ => "" },
    npos := 0, spos := 0 }

/-- C1: the category value used to index the brand table is NOT the category
field stored on the row: `generate_products` redraws the stored `category`
independently.  On `tapeC1` the single product stores category Clothing
while its brand Philips was drawn from the Electronics brand list, and
Philips is not in the Clothing brand list. -/
theorem product_category_brand_desync :
    ((generate_products (mkPools 1 1) tapeC1).map
      (fun p => p.1.map (fun pr => (pr.category, pr.brand)))) =
        some [("Clothing", "Philips")] ∧
      "Philips" ∉ brands "Clothing" := by
  constructor
  · decide
  · decide

/-- C2 counterexample: with numUsers = 5 the purchaser subset the code draws
has size `int(5 * 0.3) = 1`, while round(0.3 × 5) = round(1.5) = 2. -/
theorem purchaser_subset_size_not_round :
    (sampleStr (mkPools 5 1).users (purchaserCount (mkPools 5 1).num_users)
        st0).map (fun p => p.1.length) = some 1 ∧
      round ((0.3 : ℚ) * 5) = 2 ∧ (1 : ℤ) ≠ 2 := by
  refine ⟨by decide, ?_, by decide⟩
  norm_num [round_eq]

/-- C2 amended: `generate_transactions` samples a purchaser subset of size
exactly `⌊0.3 × numUsers⌋` (Python int truncation), without replacement
(pairwise distinct elements of the user pool), and every `user_id` in the
output belongs to this subset. -/
theorem purchaser_subset_spec (n p ntx days : ℕ) (now : ℤ) (s : GenState) :
    ∃ purch s1,
      sampleStr (mkPools n p).users (purchaserCount (mkPools n p).num_users)
          s = some (purch, s1) ∧
      purch.length = n * 3 / 10 ∧
      (∀ u ∈ purch, u ∈ (mkPools n p).users) ∧ purch.Nodup ∧
      (∀ rows s2, generate_transactions (mkPools n p) ntx days now s =
          some (rows, s2) →
        ∀ row ∈ rows, row.user_id ∈ purch) := by
  have hk : purchaserCount (mkPools n p).num_users ≤
      (mkPools n p).users.length := by
    rw [users_length]
    simp only [purchaserCount, mkPools]
    omega
  refine ⟨(sampleGo (purchaserCount (mkPools n p).num_users)
      (mkPools n p).users s).1,
    (sampleGo (purchaserCount (mkPools n p).num_users)
      (mkPools n p).users s).2, ?_, ?_, ?_, ?_, ?_⟩
  · rw [sampleStr, if_pos hk]
  · exact sampleGo_length _ _ _ hk
  · exact sampleGo_subset _ _ _
  · exact sampleGo_nodup _ _ _ (users_nodup n p)
  · intro rows s2 h row hrow
    exact (generate_transactions_fields h row hrow).1

/-- Witness for C2 amended at numUsers = 5 on a concrete successful run. -/
theorem purchaser_subset_spec_witness :
    ∃ purch s1 rows s2,
      sampleStr (mkPools 5 1).users (purchaserCount (mkPools 5 1).num_users)
          st0 = some (purch, s1) ∧
      purch.length = 5 * 3 / 10 ∧
      generate_transactions (mkPools 5 1) 1 30 0 st0 = some (rows, s2) ∧
      ∀ row ∈ rows, row.user_id ∈ purch := by
  obtain ⟨purch, s1, h1, h2, h3, h4, h5⟩ :=
    purchaser_subset_spec 5 1 1 30 0 st0
  exact ⟨purch, s1, _, _, h1, h2, rfl, h5 _ _ rfl⟩

/-- C3 counterexample: two runs with the same seed (oracle) and parameters
but different wall-clock readings produce different log tables, so fixed
seed and parameters alone do not make the output files byte-identical. -/
theorem fixed_seed_logs_differ_across_clock :
    ((generate_user_logs (mkPools 1 1) 1 30 0 st0).map
        (fun p => p.1.map (fun r => r.timestamp))) ≠
      ((generate_user_logs (mkPools 1 1) 1 30 86400 st0).map
        (fun p => p.1.map (fun r => r.timestamp))) := by
  decide

/-- C3 amended: with a fixed seed and fixed parameters, two runs produce
identical draws; the log and transaction tables agree in every field except
`timestamp`, which is shifted by exactly the difference of the two clock
readings (so the files are byte-identical exactly when the clock reading is
also the same; the products table does not depend on the clock at all, as
`generate_products` takes no time input). -/
theorem fixed_seed_outputs_shift_with_clock (pools : Pools)
    (num_logs ntx days : ℕ) (now1 now2 : ℤ) (s : GenState) :
    generate_user_logs pools num_logs days now2 s =
      (generate_user_logs pools num_logs days now1 s).map
        (fun p => (p.1.map (shiftLog (now2 - now1)), p.2)) ∧
    generate_transactions pools ntx days now2 s =
      (generate_transactions pools ntx days now1 s).map
        (fun p => (p.1.map (shiftTx (now2 - now1)), p.2)) :=
  ⟨generate_user_logs_shift pools num_logs days now1 now2 s,
   generate_transactions_shift pools ntx days now1 now2 s⟩

/-- An oracle whose first log row draws the maximal day, hour, minute and
second offsets (30, 23, 59, 59 over a 30-day window). -/
def tapeC4 : GenState :=
  { oracle := { nat := fun i => [0, 30, 23, 59, 59, 0, 0, 0, 0].getD i 0,
                str := fun _ => "" },
    npos := 0, spos := 0 }

/-- C4 counterexample: with now = 0 and windowDays = 30, the generated log
row has timestamp 86399 > now, outside the claimed interval
`[now - windowDays, now]` (`randint(0, days)` is inclusive and the
hour/minute/second offsets are added on top). -/
theorem log_timestamp_can_exceed_now :
    ((generate_user_logs (mkPools 1 1) 1 30 0 tapeC4).map
        (fun p => p.1.map (fun r => r.timestamp))) = some [86399] ∧
      ¬ ((86399 : ℤ) ≤ 0) := by
  constructor
  · decide
  · decide

/-- C4 amended: every generated log timestamp lies in
`[now - windowDays, now + 86399 s]` and every generated transaction
timestamp lies in `[now - windowDays, now + 86340 s]` — the window extends
up to one day minus one second (resp. one minute) beyond `now`. -/
theorem timestamps_within_extended_window :
    (∀ (pools : Pools) (num_logs days : ℕ) (now : ℤ) (s : GenState)
        (rows : List LogRow) (s1 : GenState),
      generate_user_logs pools num_logs days now s = some (rows, s1) →
      ∀ row ∈ rows, now - (days : ℤ) * 86400 ≤ row.timestamp ∧
        row.timestamp ≤ now + 86399) ∧
    (∀ (pools : Pools) (ntx days : ℕ) (now : ℤ) (s : GenState)
        (rows : List TxRow) (s1 : GenState),
      generate_transactions pools ntx days now s = some (rows, s1) →
      ∀ row ∈ rows, now - (days : ℤ) * 86400 ≤ row.timestamp ∧
        row.timestamp ≤ now + 86340) :=
  ⟨fun _ _ _ _ _ _ _ h => generate_user_logs_bounds h,
   fun _ _ _ _ _ _ _ h row hrow =>
     (generate_transactions_fields h row hrow).2.1⟩

/-- Witness for C4 amended on concrete successful runs of both
generators. -/
theorem timestamps_within_extended_window_witness :
    ∃ lrows ls trows ts,
      generate_user_logs (mkPools 1 1) 1 30 0 st0 = some (lrows, ls) ∧
      generate_transactions (mkPools 4 1) 1 30 0 st0 = some (trows, ts) ∧
      (∀ row ∈ lrows, (0 : ℤ) - 30 * 86400 ≤ row.timestamp ∧
        row.timestamp ≤ 0 + 86399) ∧
      (∀ row ∈ trows, (0 : ℤ) - 30 * 86400 ≤ row.timestamp ∧
        row.timestamp ≤ 0 + 86340) := by
  refine ⟨_, _, _, _, rfl, rfl, ?_, ?_⟩
  · exact fun row hrow => timestamps_within_extended_window.1
      (mkPools 1 1) 1 30 0 st0 _ _ rfl row hrow
  · exact fun row hrow => timestamps_within_extended_window.2
      (mkPools 4 1) 1 30 0 st0 _ _ rfl row hrow

/-- First row of the §8 Revenue Aggregator scenario. -/
def scRow1 : Tx :=
  { amount := 100, payment_method := "credit_card", timestamp := 0,
    status := "completed" }

/-- Second row of the §8 Revenue Aggregator scenario. -/
def scRow2 : Tx :=
  { amount := 50, payment_method := "paypal", timestamp := 0,
    status := "pending" }

/-- Third row of the §8 Revenue Aggregator scenario. -/
def scRow3 : Tx :=
  { amount := 200, payment_method := "credit_card", timestamp := 0,
    status := "completed" }

/-- The §8 Revenue Aggregator scenario table. -/
def scenarioTxs : List Tx := [scRow1, scRow2, scRow3]

/-- C5 counterexample: on a conforming table with no completed row (the
empty table), `calculate_revenue` returns `null` for `total_revenue`, not
the (empty) sum 0 the universally quantified claim would require. -/
theorem revenue_total_null_not_sum_on_empty :
    (calculate_revenue []).total_revenue = none ∧
      (calculate_revenue []).total_revenue ≠ some (specTotalRevenue []) := by
  constructor
  · rfl
  · decide

/-- C5 amended: on every transactions table containing at least one
completed row, `calculate_revenue` returns `total_revenue` equal to the sum
of `amount` over completed rows and `avg_transaction_value` equal to their
average; on every table, the per-status rows carry the row count and amount
sum of that status over all rows, their keys are exactly the statuses
present, and they are ordered descending by count; and on the concrete
three-row scenario it returns 300.00, 150.00 and counts
{completed: 2, pending: 1}. -/
theorem calculate_revenue_contract :
    (∀ txs : List Tx, (∃ t ∈ txs, t.status = "completed") →
      (calculate_revenue txs).total_revenue = some (specTotalRevenue txs) ∧
      (calculate_revenue txs).avg_transaction_value =
        some (specAvgTransaction txs)) ∧
    (∀ txs : List Tx,
      (∀ e ∈ (calculate_revenue txs).transaction_status_counts,
        e.2.1 = specStatusCount txs e.1 ∧
        e.2.2 = some (specStatusAmount txs e.1)) ∧
      (∀ st : String,
        st ∈ (calculate_revenue txs).transaction_status_counts.map
          (fun e => e.1) ↔ st ∈ txs.map (fun t => t.status)) ∧
      List.Chain' (fun a b => b.2.1 ≤ a.2.1)
        (calculate_revenue txs).transaction_status_counts) ∧
    ((calculate_revenue scenarioTxs).total_revenue = some 300 ∧
      (calculate_revenue scenarioTxs).avg_transaction_value = some 150 ∧
      (calculate_revenue scenarioTxs).transaction_status_counts =
        [("completed", 2, some 300), ("pending", 1, some 50)]) := by
  refine ⟨?_, ?_, ?_, ?_, ?_⟩
  · rintro txs ⟨t, ht, hst⟩
    have hne : (txs.filter (fun t => t.status == "completed")).map
        (fun t => t.amount) ≠ [] := by
      intro hmap
      exact filter_status_ne_nil ht hst (List.map_eq_nil_iff.mp hmap)
    constructor
    · show aggSum ((txs.filter (fun t => t.status == "completed")).map
        (fun t => t.amount)) = some (specTotalRevenue txs)
      rw [aggSum_ne_nil hne]
      rfl
    · show aggAvg ((txs.filter (fun t => t.status == "completed")).map
        (fun t => t.amount)) = some (specAvgTransaction txs)
      rw [aggAvg_ne_nil hne]
      simp [specAvgTransaction, specTotalRevenue]
  · intro txs
    refine ⟨?_, ?_, ?_⟩
    · intro e he
      replace he : e ∈ List.insertionSort descCount
          ((distinctBy (fun t => t.status) txs).map (statusAgg txs)) := he
      have hmem := (List.mem_insertionSort descCount).mp he
      obtain ⟨st, hstk, rfl⟩ := List.mem_map.mp hmem
      refine ⟨rfl, ?_⟩
      have hx : st ∈ txs.map (fun t => t.status) :=
        (distinctBy_mem _ _ _).mp hstk
      obtain ⟨t, ht, hst⟩ := List.mem_map.mp hx
      show aggSum ((txs.filter (fun t => t.status == st)).map
        (fun t => t.amount)) = some (specStatusAmount txs st)
      rw [aggSum_ne_nil (fun hmap =>
        filter_status_ne_nil ht hst (List.map_eq_nil_iff.mp hmap))]
      rfl
    · intro st
      constructor
      · intro hstm
        obtain ⟨e, he, rfl⟩ := List.mem_map.mp hstm
        replace he : e ∈ List.insertionSort descCount
            ((distinctBy (fun t => t.status) txs).map (statusAgg txs)) := he
        have hmem := (List.mem_insertionSort descCount).mp he
        obtain ⟨k, hk, rfl⟩ := List.mem_map.mp hmem
        exact (distinctBy_mem _ _ _).mp hk
      · intro hstm
        have hk : st ∈ distinctBy (fun t => t.status) txs :=
          (distinctBy_mem _ _ _).mpr hstm
        refine List.mem_map.mpr ⟨statusAgg txs st, ?_, rfl⟩
        exact (List.mem_insertionSort descCount).mpr
          (List.mem_map.mpr ⟨st, hk, rfl⟩)
    · exact (List.sorted_insertionSort descCount _).chain'
  · norm_num [calculate_revenue, scenarioTxs, scRow1, scRow2, scRow3, aggSum,
      List.filter, show ("completed" == "completed") = true from rfl,
      show ("pending" == "completed") = false from rfl]
  · norm_num [calculate_revenue, scenarioTxs, scRow1, scRow2, scRow3, aggAvg,
      List.filter, show ("completed" == "completed") = true from rfl,
      show ("pending" == "completed") = false from rfl]
  · norm_num [calculate_revenue, scenarioTxs, scRow1, scRow2, scRow3, aggSum,
      List.filter, distinctBy, statusAgg, List.insertionSort,
      List.orderedInsert, descCount,
      show ("completed" == "completed") = true from rfl,
      show ("pending" == "completed") = false from rfl,
      show ("completed" == "pending") = false from rfl,
      show ("pending" == "pending") = true from rfl]

/-- Witness for C5 amended at the concrete scenario table. -/
theorem calculate_revenue_contract_witness :
    (∃ t ∈ scenarioTxs, t.status = "completed") ∧
    (calculate_revenue scenarioTxs).total_revenue =
      some (specTotalRevenue scenarioTxs) ∧
    (calculate_revenue scenarioTxs).avg_transaction_value =
      some (specAvgTransaction scenarioTxs) :=
  ⟨⟨scRow1, List.mem_cons_self _ _, rfl⟩,
    calculate_revenue_contract.1 scenarioTxs
      ⟨scRow1, List.mem_cons_self _ _, rfl⟩⟩

end ECommerce
